import Mathlib

/-!
Verification of the `azauth` token-acquisition subsystem of the repository
(`azauth/token.go`): the credential-resolution chain (`BuildChainedToken`),
the retrying managed-identity wrapper (`retryableManagedIdentityCredential`
with its `GetToken` / `tryGetToken` methods), and the credential
materializer (`GetTokenFromCredential`).

The Go code is shallowly embedded: machine words (`int`, `time.Duration`)
become `Int`; the underlying managed-identity credential's `GetToken` is an
oracle `Nat → Except AzError AccessToken` giving the outcome of its i-th
invocation; the context-deadline arithmetic of `context.WithTimeout` is
modelled explicitly as an `Option Int` absolute deadline.
-/

set_option autoImplicit false

namespace Azauth

/-! ### Strings: Go's `strings.Contains` -/

/-- `listIsPrefixOf pat s` is Go's test that `pat` is a prefix of `s`,
on character lists. -/
def listIsPrefixOf : List Char → List Char → Bool
  | [], _ => true
  | _ :: _, [] => false
  | a :: as, b :: bs => a == b && listIsPrefixOf as bs

/-- `listContainsSub pat s` is true when `pat` occurs as a contiguous
substring of `s`. -/
def listContainsSub (pat : List Char) : List Char → Bool
  | [] => pat.isEmpty
  | b :: bs => listIsPrefixOf pat (b :: bs) || listContainsSub pat bs

/-- Go's `strings.Contains s substr`. -/
def stringsContains (s substr : String) : Bool :=
  listContainsSub substr.data s.data

/-! ### Error and token values (`azcore` / `azidentity`) -/

/-- `azcore.AccessToken`: a token string and an absolute expiry. -/
structure AccessToken where
  token : String
  expiresOn : Int
deriving DecidableEq

/-- The zero value `azcore.AccessToken\x7b\x7d` returned on failure. -/
def AccessToken.zero : AccessToken := ⟨"", 0⟩

/-- Errors visible to the retry wrapper.  `authenticationFailed m` models
an `*azidentity.AuthenticationFailedError` whose `Error()` is `m`
(the kind that `errors.As` with `**AuthenticationFailedError` matches);
`credentialUnavailable m` models the result of
`azidentity.NewCredentialUnavailableError m`; `otherErr m` is any other
error with message `m`. -/
inductive AzError where
  | authenticationFailed (msg : String)
  | credentialUnavailable (msg : String)
  | otherErr (msg : String)
deriving DecidableEq

/-- The error's `Error()` message. -/
def AzError.message : AzError → String
  | .authenticationFailed m => m
  | .credentialUnavailable m => m
  | .otherErr m => m

/-- Go's `errors.As(err, &authFailedErr)` for
`*azidentity.AuthenticationFailedError`. -/
def errorsAsAuthFailed : AzError → Bool
  | .authenticationFailed _ => true
  | _ => false

/-- The condition under which `tryGetToken` re-classifies a failure
(token.go line 293): the error is an `AuthenticationFailedError` and its
message contains "context deadline exceeded" — i.e. the failure manifests
as a deadline/timeout against the identity endpoint. -/
def manifestsAsDeadline (e : AzError) : Bool :=
  errorsAsAuthFailed e && stringsContains e.message "context deadline exceeded"

/-- The error-classification step of `tryGetToken` (token.go lines
290-295): a timeout-manifesting authentication failure is replaced by
`NewCredentialUnavailableError("managed identity request timed out")`;
every other error is left unchanged. -/
def classifyTimeoutError (e : AzError) : AzError :=
  if manifestsAsDeadline e then
    .credentialUnavailable "managed identity request timed out"
  else e

/-! ### Context deadlines (`context.WithTimeout`)

A Go context is modelled by its effective absolute deadline: `none` when it
carries no deadline.  `context.WithTimeout(parent, d)` is
`context.WithDeadline(parent, now + d)`, and `WithDeadline` keeps the
parent's deadline when that one is earlier, so the child's effective
deadline is the minimum of the two.  Note that Go applies this for every
`d`, including `d <= 0`, in which case the child is already expired. -/

/-- Effective deadline of `context.WithTimeout(parent, d)` taken at
absolute time `now`. -/
def contextWithTimeout (now : Int) (parentDeadline : Option Int) (d : Int) : Option Int :=
  match parentDeadline with
  | none => some (now + d)
  | some pd => some (min pd (now + d))

/-- The effective deadline of the context under which
`tryGetToken` invokes `t.mic.GetToken` (token.go lines 281-306), as a
function of the current time, the caller-supplied context's deadline and
the instance's `timeout` field.  Line 283 re-binds `ctx` to
`context.WithTimeout(ctx, t.timeout)` unconditionally; the
`t.timeout > 0` branch then derives one more timeout context from it
(line 287), while the `else` branch (line 303) uses the re-bound `ctx`
directly. -/
def tryGetTokenMicDeadline (now : Int) (callerDeadline : Option Int) (timeout : Int) :
    Option Int :=
  let ctx := contextWithTimeout now callerDeadline timeout
  if timeout > 0 then contextWithTimeout now ctx timeout
  else ctx

/-! ### The retryable managed-identity credential -/

/-- `retryableManagedIdentityCredential` (token.go lines 224-228).  The
underlying `mic` is kept polymorphic: the wrapper never inspects it, it
only invokes its `GetToken`, which we model by an outcome oracle passed
separately. -/
structure Retryable (M : Type) where
  mic : M
  attempts : Int
  timeout : Int
deriving DecidableEq

/-- One attempt, `tryGetToken` (token.go lines 281-306), given the outcome
of this invocation of the underlying `mic.GetToken`.  Exactly one
invocation of `mic.GetToken` happens, in either branch.  With
`timeout > 0`: on success the `timeout` field is set to `0` for future
calls; on failure the error is classified.  With `timeout <= 0` the
outcome is passed through and the state is unchanged. -/
def tryGetToken {M : Type} (t : Retryable M) (outcome : Except AzError AccessToken) :
    Except AzError AccessToken × Retryable M :=
  if t.timeout > 0 then
    match outcome with
    | .ok tk => (.ok tk, { t with timeout := 0 })
    | .error e => (.error (classifyTimeoutError e), t)
  else
    (outcome, t)

/-- The error an attempt records, as a function of the `timeout` field in
force during the attempt. -/
def recordErr (timeout : Int) (e : AzError) : AzError :=
  if timeout > 0 then classifyTimeoutError e else e

/-- Go's `errors.Join(errs...)`: `nil` when the list is empty, otherwise
an error joining the list in order. -/
def errorsJoin (errs : List AzError) : Option (List AzError) :=
  if errs.isEmpty then none else some errs

/-- Result of one `GetToken` call on the wrapper: the returned token, the
returned error (`none` = `nil`, `some errs` = `errors.Join errs`), the
instance state after the call, and the number of invocations of the
underlying `mic.GetToken` the call performed. -/
structure GetTokenResult (M : Type) where
  token : AccessToken
  err : Option (List AzError)
  state : Retryable M
  calls : Nat
deriving DecidableEq

/-- The retry loop of `GetToken` (token.go lines 248-265).  `mic j` is the
outcome of the j-th invocation (0-based) of the underlying credential;
`calls` counts invocations made so far, `remaining` is the number of loop
iterations left, `errs` the accumulated per-attempt errors. -/
def getTokenAux {M : Type} (mic : Nat → Except AzError AccessToken) :
    Retryable M → Nat → Nat → List AzError → GetTokenResult M
  | t, calls, 0, errs => ⟨AccessToken.zero, errorsJoin errs, t, calls⟩
  | t, calls, remaining + 1, errs =>
    match tryGetToken t (mic calls) with
    | (.ok tk, t') => ⟨tk, none, t', calls + 1⟩
    | (.error e, t') => getTokenAux mic t' (calls + 1) remaining (errs ++ [e])

/-- `GetToken` (token.go lines 242-266): coerce `attempts` to at least 1
(a mutation of the instance field, lines 244-246), then run the retry
loop for the (coerced) `attempts` iterations. -/
def getToken {M : Type} (mic : Nat → Except AzError AccessToken) (t : Retryable M) :
    GetTokenResult M :=
  if t.attempts < 1 then
    getTokenAux mic { t with attempts := 1 } 0 1 []
  else
    getTokenAux mic t 0 t.attempts.toNat []

/-! ### `BuildChainedToken` (token.go lines 120-129)

A `TokenResolverFn` is a nullary Go function; `BuildChainedToken` invokes
each one once, in order, keeps the credentials of those that return a nil
error, drops the errors of the rest, and passes the retained list to
`azidentity.NewChainedTokenCredential`.  Each resolver is modelled by an
identifying tag plus the result its single invocation produces; running
the loop yields the trace of invocation tags (in invocation order) and the
retained credential list. -/

/-- One `TokenResolverFn`: an identifying tag and the result of its (one)
invocation. -/
structure Resolver (E C : Type) where
  tag : Nat
  result : Except E C

/-- The `for` loop of `BuildChainedToken`: invoke each resolver in order,
recording the invocation trace and appending the credential when the
resolver returns a nil error. -/
def runResolvers {E C : Type} : List (Resolver E C) → List Nat × List C
  | [] => ([], [])
  | r :: rest =>
    let tc := runResolvers rest
    (r.tag :: tc.1,
      match r.result with
      | .ok c => c :: tc.2
      | .error _ => tc.2)

/-- `BuildChainedToken`, parameterized by the external constructor
`azidentity.NewChainedTokenCredential` (`ctor`).  Returns the invocation
trace together with the value `BuildChainedToken` returns: exactly
`ctor` applied to the retained credentials. -/
def buildChainedToken {E C Chain : Type} (ctor : List C → Except E Chain)
    (rs : List (Resolver E C)) : List Nat × Except E Chain :=
  let tc := runResolvers rs
  (tc.1, ctor tc.2)

/-- The credentials of the resolvers that returned no error, in their
original relative order. -/
def okCredentials {E C : Type} (rs : List (Resolver E C)) : List C :=
  rs.filterMap fun r =>
    match r.result with
    | .ok c => some c
    | .error _ => none

/-! ### `GetTokenFromCredential` (token.go lines 182-216) -/

/-- `vault.CredentialType` as consumed by `GetTokenFromCredential`: the
two handled enum values plus any other value with its `String()` name. -/
inductive CredentialType where
  | pkcs12
  | password
  | otherType (name : String)
deriving DecidableEq

/-- The `String()` rendering of the credential type. -/
def CredentialType.render : CredentialType → String
  | .pkcs12 => "pkcs12"
  | .password => "password"
  | .otherType s => s

/-- `vault.Credential`, restricted to the fields `GetTokenFromCredential`
reads.  Secret bytes are modelled as a string. -/
structure VaultCredential where
  type : CredentialType
  secret : String
  password : String
  privateKeyPath : String
deriving DecidableEq

/-- The externally visible effects `GetTokenFromCredential` can perform:
building the default chain, parsing certificate material (pure, local),
and invoking the two credential constructors (the only steps that may
construct a credential; any network traffic happens only behind the
constructed credentials). -/
inductive AzEffect where
  | buildDefaultChain
  | parseCertificates
  | newClientCertificateCredential
  | newClientSecretCredential
deriving DecidableEq

/-- The external collaborators of `GetTokenFromCredential`:
`azidentity.ParseCertificates`, the two credential constructors, and the
default-chain builder; `Cred` is the type of constructed credentials,
`Certs` and `Key` the parse products. -/
structure AzEnv (Cred Certs Key : Type) where
  parseCertificates : String → String → Except String (Certs × Key)
  newClientCertificateCredential : String → String → Certs → Key → Except String Cred
  newClientSecretCredential : String → String → String → Except String Cred
  defaultChain : Except String Cred

/-- `GetTokenFromCredential` (token.go lines 182-216), returning the trace
of effects performed followed by the returned (credential, error) pair as
an `Except`.  Error messages follow `errors.Wrap`, which renders as
"message: cause". -/
def getTokenFromCredential {Cred Certs Key : Type} (env : AzEnv Cred Certs Key)
    (credential : Option VaultCredential) (tenantID clientID : String) :
    List AzEffect × Except String Cred :=
  match credential with
  | none =>
    ([.buildDefaultChain],
      match env.defaultChain with
      | .ok c => .ok c
      | .error e => .error ("error creating CLI credentials: " ++ e))
  | some cred =>
    match cred.type with
    | .pkcs12 =>
      match env.parseCertificates cred.secret cred.password with
      | .error e =>
        ([.parseCertificates],
          .error ("could not parse provided certificate at "
            ++ cred.privateKeyPath ++ ": " ++ e))
      | .ok ck =>
        match env.newClientCertificateCredential tenantID clientID ck.1 ck.2 with
        | .ok c => ([.parseCertificates, .newClientCertificateCredential], .ok c)
        | .error e =>
          ([.parseCertificates, .newClientCertificateCredential],
            .error ("error creating credentials from a certificate: " ++ e))
    | .password =>
      match env.newClientSecretCredential tenantID clientID cred.secret with
      | .ok c => ([.newClientSecretCredential], .ok c)
      | .error e =>
        ([.newClientSecretCredential],
          .error ("error creating credentials from a secret: " ++ e))
    | .otherType s =>
      ([], .error ("invalid secret configuration for microsoft transport: " ++ s))

/-! ### Concrete fixtures used by witnesses and counterexamples -/

/-- A retryable credential over a trivial underlying value, with the given
`attempts` and `timeout` fields. -/
def rtU (a timeout : Int) : Retryable Unit := ⟨(), a, timeout⟩

/-- An underlying credential that succeeds on every invocation. -/
def micAlwaysOk : Nat → Except AzError AccessToken :=
  fun _ => .ok ⟨"tok", 1700000000⟩

/-- An underlying credential whose every invocation is rejected with a
(non-timeout) authentication failure. -/
def micAlwaysAuthFail : Nat → Except AzError AccessToken :=
  fun _ => .error (.authenticationFailed "invalid client secret")

/-- An underlying credential that fails once, then succeeds. -/
def micFailThenOk : Nat → Except AzError AccessToken :=
  fun j => if j = 0 then .error (.otherErr "EOF") else .ok ⟨"tok2", 42⟩

/-- An authentication failure whose message manifests a deadline/timeout
against the identity endpoint. -/
def eDeadline : AzError :=
  .authenticationFailed "managed identity request failed: context deadline exceeded"

/-- A chain constructor for witnesses: succeeds, reporting the number of
credentials it received. -/
def ctorW : List Nat → Except String Nat := fun cs => .ok cs.length

/-- Two resolvers that both fail. -/
def rsW : List (Resolver String Nat) :=
  [⟨0, .error "cli unavailable"⟩, ⟨1, .error "env missing"⟩]

/-- A materializer environment whose certificate parser always fails. -/
def envW : AzEnv Nat Unit Unit :=
  ⟨fun _ _ => .error "pkcs12: decode failure", fun _ _ _ _ => .ok 0,
   fun _ _ _ => .ok 1, .ok 2⟩

/-- A certificate-kind vault credential with unparsable secret bytes. -/
def credW : VaultCredential := ⟨.pkcs12, "not-a-cert", "pw", "/etc/azure/key.pfx"⟩

/-! ### Helper lemmas -/

theorem tryGetToken_ok {M : Type} (t : Retryable M) (tk : AccessToken) :
    tryGetToken t (.ok tk) =
      (.ok tk, if t.timeout > 0 then { t with timeout := 0 } else t) := by
  unfold tryGetToken
  split <;> rfl

theorem tryGetToken_err {M : Type} (t : Retryable M) (e : AzError) :
    tryGetToken t (.error e) = (.error (recordErr t.timeout e), t) := by
  unfold tryGetToken recordErr
  split <;> rfl

theorem tryGetToken_snd_frame {M : Type} (t : Retryable M)
    (o : Except AzError AccessToken) :
    (tryGetToken t o).2.mic = t.mic ∧ (tryGetToken t o).2.attempts = t.attempts := by
  unfold tryGetToken
  split
  · cases o <;> exact ⟨rfl, rfl⟩
  · exact ⟨rfl, rfl⟩

theorem getTokenAux_zero {M : Type} (mic : Nat → Except AzError AccessToken)
    (t : Retryable M) (calls : Nat) (errs : List AzError) :
    getTokenAux mic t calls 0 errs = ⟨AccessToken.zero, errorsJoin errs, t, calls⟩ := rfl

theorem getTokenAux_succ_ok {M : Type} (mic : Nat → Except AzError AccessToken)
    (t t' : Retryable M) (calls r : Nat) (errs : List AzError) (tk : AccessToken)
    (h : tryGetToken t (mic calls) = (.ok tk, t')) :
    getTokenAux mic t calls (r + 1) errs = ⟨tk, none, t', calls + 1⟩ := by
  conv_lhs => rw [getTokenAux]
  rw [h]

theorem getTokenAux_succ_err {M : Type} (mic : Nat → Except AzError AccessToken)
    (t t' : Retryable M) (calls r : Nat) (errs : List AzError) (e : AzError)
    (h : tryGetToken t (mic calls) = (.error e, t')) :
    getTokenAux mic t calls (r + 1) errs =
      getTokenAux mic t' (calls + 1) r (errs ++ [e]) := by
  conv_lhs => rw [getTokenAux]
  rw [h]

theorem getTokenAux_state_frame {M : Type} (mic : Nat → Except AzError AccessToken)
    (remaining : Nat) :
    ∀ (t : Retryable M) (calls : Nat) (errs : List AzError),
    (getTokenAux mic t calls remaining errs).state.mic = t.mic ∧
    (getTokenAux mic t calls remaining errs).state.attempts = t.attempts := by
  induction remaining with
  | zero => intro t calls errs; exact ⟨rfl, rfl⟩
  | succ r ih =>
    intro t calls errs
    have hf := tryGetToken_snd_frame t (mic calls)
    rcases h : tryGetToken t (mic calls) with ⟨res, t'⟩
    rw [h] at hf
    cases res with
    | ok tk =>
      rw [getTokenAux_succ_ok mic t t' calls r errs tk h]
      exact hf
    | error e =>
      rw [getTokenAux_succ_err mic t t' calls r errs e h]
      have hr := ih t' (calls + 1) (errs ++ [e])
      exact ⟨hr.1.trans hf.1, hr.2.trans hf.2⟩

theorem getTokenAux_calls_le {M : Type} (mic : Nat → Except AzError AccessToken)
    (remaining : Nat) :
    ∀ (t : Retryable M) (calls : Nat) (errs : List AzError),
    calls ≤ (getTokenAux mic t calls remaining errs).calls := by
  induction remaining with
  | zero => intro t calls errs; exact Nat.le_refl calls
  | succ r ih =>
    intro t calls errs
    rcases h : tryGetToken t (mic calls) with ⟨res, t'⟩
    cases res with
    | ok tk =>
      rw [getTokenAux_succ_ok mic t t' calls r errs tk h]
      exact Nat.le_succ calls
    | error e =>
      rw [getTokenAux_succ_err mic t t' calls r errs e h]
      exact Nat.le_trans (Nat.le_succ calls) (ih t' (calls + 1) (errs ++ [e]))

theorem getTokenAux_calls_succ_le {M : Type} (mic : Nat → Except AzError AccessToken)
    (t : Retryable M) (calls r : Nat) (errs : List AzError) :
    calls + 1 ≤ (getTokenAux mic t calls (r + 1) errs).calls := by
  rcases h : tryGetToken t (mic calls) with ⟨res, t'⟩
  cases res with
  | ok tk =>
    rw [getTokenAux_succ_ok mic t t' calls r errs tk h]
  | error e =>
    rw [getTokenAux_succ_err mic t t' calls r errs e h]
    exact getTokenAux_calls_le mic r t' (calls + 1) (errs ++ [e])

/-- The per-attempt errors a failing run records, starting at invocation
index `calls`, for `remaining` further attempts, with the `timeout` field
in force. -/
def recordedErrs (timeout : Int) (errf : Nat → AzError) :
    Nat → Nat → List AzError
  | _, 0 => []
  | calls, r + 1 =>
    recordErr timeout (errf calls) :: recordedErrs timeout errf (calls + 1) r

theorem recordedErrs_eq_map (timeout : Int) (errf : Nat → AzError) (remaining : Nat) :
    ∀ calls, recordedErrs timeout errf calls remaining =
      (List.range remaining).map (fun j => recordErr timeout (errf (calls + j))) := by
  induction remaining with
  | zero => intro calls; rfl
  | succ r ih =>
    intro calls
    rw [List.range_succ_eq_map, List.map_cons, List.map_map]
    show recordErr timeout (errf calls) :: recordedErrs timeout errf (calls + 1) r = _
    rw [ih (calls + 1)]
    refine congrArg₂ _ (by simp) (List.map_congr_left fun j _ => ?_)
    simp only [Function.comp]
    rw [show calls + 1 + j = calls + (j + 1) by omega]

theorem getTokenAux_all_fail {M : Type} (mic : Nat → Except AzError AccessToken)
    (errf : Nat → AzError) (remaining : Nat) :
    ∀ (t : Retryable M) (calls : Nat) (errs : List AzError),
    (∀ j, j < remaining → mic (calls + j) = .error (errf (calls + j))) →
    getTokenAux mic t calls remaining errs =
      ⟨AccessToken.zero,
       errorsJoin (errs ++ recordedErrs t.timeout errf calls remaining),
       t, calls + remaining⟩ := by
  induction remaining with
  | zero => intro t calls errs _; simp [getTokenAux_zero, recordedErrs]
  | succ r ih =>
    intro t calls errs h
    have h0 : mic calls = .error (errf calls) := by
      have := h 0 (Nat.succ_pos r)
      simpa using this
    have hstep : tryGetToken t (mic calls) =
        (.error (recordErr t.timeout (errf calls)), t) := by
      rw [h0, tryGetToken_err]
    rw [getTokenAux_succ_err mic t t calls r errs _ hstep]
    have h' : ∀ j, j < r → mic (calls + 1 + j) = .error (errf (calls + 1 + j)) := by
      intro j hj
      have := h (j + 1) (by omega)
      rw [show calls + (j + 1) = calls + 1 + j by omega] at this
      exact this
    rw [ih t (calls + 1) (errs ++ [recordErr t.timeout (errf calls)]) h']
    rw [show recordedErrs t.timeout errf calls (r + 1) =
      recordErr t.timeout (errf calls) :: recordedErrs t.timeout errf (calls + 1) r from rfl]
    rw [List.append_assoc, List.singleton_append]
    rw [show calls + 1 + r = calls + (r + 1) by omega]

theorem getTokenAux_success_after {M : Type} (mic : Nat → Except AzError AccessToken)
    (k' : Nat) :
    ∀ (t : Retryable M) (calls remaining : Nat) (errs : List AzError) (tk : AccessToken),
    k' < remaining →
    (∀ j, j < k' → ∃ e, mic (calls + j) = .error e) →
    mic (calls + k') = .ok tk →
    (getTokenAux mic t calls remaining errs).token = tk ∧
    (getTokenAux mic t calls remaining errs).err = none ∧
    (getTokenAux mic t calls remaining errs).calls = calls + k' + 1 := by
  induction k' with
  | zero =>
    intro t calls remaining errs tk hlt _ hok
    obtain ⟨r, rfl⟩ : ∃ r, remaining = r + 1 := ⟨remaining - 1, by omega⟩
    have hok' : mic calls = .ok tk := by simpa using hok
    have hstep : tryGetToken t (mic calls) =
        (.ok tk, if t.timeout > 0 then { t with timeout := 0 } else t) := by
      rw [hok', tryGetToken_ok]
    rw [getTokenAux_succ_ok mic t _ calls r errs tk hstep]
    exact ⟨rfl, rfl, rfl⟩
  | succ k ih =>
    intro t calls remaining errs tk hlt hfail hok
    obtain ⟨r, rfl⟩ : ∃ r, remaining = r + 1 := ⟨remaining - 1, by omega⟩
    obtain ⟨e, he⟩ : ∃ e, mic calls = .error e := by
      have := hfail 0 (Nat.succ_pos k)
      simpa using this
    have hstep : tryGetToken t (mic calls) = (.error (recordErr t.timeout e), t) := by
      rw [he, tryGetToken_err]
    rw [getTokenAux_succ_err mic t t calls r errs _ hstep]
    have hfail' : ∀ j, j < k → ∃ e, mic (calls + 1 + j) = .error e := by
      intro j hj
      have := hfail (j + 1) (by omega)
      rw [show calls + (j + 1) = calls + 1 + j by omega] at this
      exact this
    have hok' : mic (calls + 1 + k) = .ok tk := by
      rw [show calls + 1 + k = calls + (k + 1) by omega]
      exact hok
    have hr := ih t (calls + 1) r (errs ++ [recordErr t.timeout e]) tk (by omega) hfail' hok'
    refine ⟨hr.1, hr.2.1, ?_⟩
    rw [hr.2.2]
    omega

theorem errorsJoin_ne_nil (l : List AzError) (h : l ≠ []) : errorsJoin l = some l := by
  unfold errorsJoin
  rw [if_neg]
  simpa using h

theorem runResolvers_eq {E C : Type} (rs : List (Resolver E C)) :
    runResolvers rs = (rs.map Resolver.tag, okCredentials rs) := by
  induction rs with
  | nil => rfl
  | cons r rest ih =>
    show (r.tag :: (runResolvers rest).1, _) = _
    rw [ih]
    rcases hr : r.result with e | c
    all_goals simp [okCredentials, List.filterMap_cons, hr]

theorem okCredentials_all_fail {E C : Type} (rs : List (Resolver E C))
    (h : ∀ r ∈ rs, ∃ e, r.result = .error e) : okCredentials rs = [] := by
  induction rs with
  | nil => rfl
  | cons r rest ih =>
    obtain ⟨e, he⟩ := h r (List.mem_cons_self r rest)
    have := ih fun x hx => h x (List.mem_cons_of_mem r hx)
    simp [okCredentials, List.filterMap_cons, he] at this ⊢
    exact this

/-! Substring facts about `stringsContains`, used to show that a wrapped
error message names the path it embeds. -/

theorem listIsPrefixOf_append (p : List Char) :
    ∀ (s : List Char), listIsPrefixOf p (p ++ s) = true := by
  induction p with
  | nil => intro s; rfl
  | cons a as ih =>
    intro s
    show (a == a && listIsPrefixOf as (as ++ s)) = true
    rw [ih s]
    simp

theorem listContainsSub_of_isPrefixOf (p s : List Char)
    (h : listIsPrefixOf p s = true) : listContainsSub p s = true := by
  cases s with
  | nil =>
    cases p with
    | nil => rfl
    | cons b bs => exact absurd h (by simp [listIsPrefixOf])
  | cons b bs =>
    show (listIsPrefixOf p (b :: bs) || listContainsSub p bs) = true
    rw [h]
    simp

theorem listContainsSub_append_left (p : List Char) :
    ∀ (l s : List Char), listContainsSub p s = true →
    listContainsSub p (l ++ s) = true := by
  intro l
  induction l with
  | nil => intro s h; simpa using h
  | cons a as ih =>
    intro s h
    show (listIsPrefixOf p (a :: (as ++ s)) || listContainsSub p (as ++ s)) = true
    rw [ih s h]
    simp

theorem stringsContains_embed (a p b : String) :
    stringsContains (a ++ p ++ b) p = true := by
  unfold stringsContains
  rw [show (a ++ p ++ b).data = a.data ++ (p.data ++ b.data) by
    simp [String.data_append]]
  exact listContainsSub_append_left p.data a.data (p.data ++ b.data)
    (listContainsSub_of_isPrefixOf p.data _ (listIsPrefixOf_append p.data b.data))

/-! ### Claim theorems -/

/-- C1 (refuted; code bug).  The claim: with `timeout <= 0`, the underlying
credential's `GetToken` runs under a context whose deadline is exactly the
caller's deadline.  In the code, line 283 re-binds `ctx` to
`context.WithTimeout(ctx, t.timeout)` unconditionally, so with
`timeout = 0` the attempt runs under a context whose deadline is `now`
(already expired) — not the caller's deadline.  At `now = 0`: a caller
context with no deadline yields deadline `some 0` instead of `none`, a
caller deadline of `100` yields `some 0` instead of `some 100`, and a
negative timeout `-5` yields `some (-5)`. -/
theorem tryGetToken_timeout_zero_deadline_bug :
    tryGetTokenMicDeadline 0 none 0 = some 0 ∧
    tryGetTokenMicDeadline 0 (some 100) 0 = some 0 ∧
    tryGetTokenMicDeadline 0 (some 100) (-5) = some (-5) ∧
    ¬ tryGetTokenMicDeadline 0 none 0 = none ∧
    ¬ tryGetTokenMicDeadline 0 (some 100) 0 = some 100 := by
  decide

/-- C2: with `attempts = N ≥ 1` and an underlying credential that fails on
every invocation, `GetToken` invokes the underlying credential exactly `N`
times and returns the zero `AccessToken` together with a single joined
error holding all `N` per-attempt errors in attempt order (each per-attempt
error being the recorded — possibly re-classified — error of that
attempt). -/
theorem getToken_exhausts_attempts {M : Type}
    (mic : Nat → Except AzError AccessToken) (t : Retryable M) (N : Nat)
    (errf : Nat → AzError)
    (hN : 1 ≤ N) (hA : t.attempts = (N : Int))
    (hfail : ∀ j, j < N → mic j = .error (errf j)) :
    (getToken mic t).calls = N ∧
    (getToken mic t).token = AccessToken.zero ∧
    (getToken mic t).err =
      some ((List.range N).map fun j => recordErr t.timeout (errf j)) := by
  have hnotlt : ¬ t.attempts < 1 := by rw [hA]; omega
  have htn : t.attempts.toNat = N := by rw [hA]; omega
  rw [getToken, if_neg hnotlt, htn]
  have hf : ∀ j, j < N → mic (0 + j) = .error (errf (0 + j)) := by
    intro j hj
    simpa using hfail j hj
  rw [getTokenAux_all_fail mic errf N t 0 [] hf]
  refine ⟨by simp, rfl, ?_⟩
  show errorsJoin ([] ++ recordedErrs t.timeout errf 0 N) = _
  rw [List.nil_append, recordedErrs_eq_map]
  have hne : ((List.range N).map fun j => recordErr t.timeout (errf (0 + j))) ≠ [] := by
    simp only [ne_eq, List.map_eq_nil_iff, List.range_eq_nil]
    omega
  rw [errorsJoin_ne_nil _ hne]
  exact congrArg _ (List.map_congr_left fun j _ => by rw [Nat.zero_add])

/-- Witness for C2: two attempts, both rejected, `timeout = 0`. -/
theorem getToken_exhausts_attempts_witness :
    (getToken micAlwaysAuthFail (rtU 2 0)).calls = 2 ∧
    (getToken micAlwaysAuthFail (rtU 2 0)).token = AccessToken.zero ∧
    (getToken micAlwaysAuthFail (rtU 2 0)).err =
      some ((List.range 2).map fun _ =>
        AzError.authenticationFailed "invalid client secret") := by
  have h := getToken_exhausts_attempts micAlwaysAuthFail (rtU 2 0) 2
    (fun _ => .authenticationFailed "invalid client secret")
    (by decide) (by decide) (fun j hj => rfl)
  simpa [recordErr, rtU] using h

/-- C3: with `attempts = N` and `1 ≤ k ≤ N`, if the underlying credential
fails on the first `k - 1` invocations and succeeds on the `k`-th with
token `tk`, then `GetToken` invokes the underlying credential exactly `k`
times, returns a nil error, and returns exactly `tk`. -/
theorem getToken_success_on_kth {M : Type}
    (mic : Nat → Except AzError AccessToken) (t : Retryable M) (N k : Nat)
    (tk : AccessToken)
    (hk1 : 1 ≤ k) (hkN : k ≤ N) (hA : t.attempts = (N : Int))
    (hfail : ∀ j, j < k - 1 → ∃ e, mic j = .error e)
    (hsucc : mic (k - 1) = .ok tk) :
    (getToken mic t).calls = k ∧
    (getToken mic t).err = none ∧
    (getToken mic t).token = tk := by
  have hnotlt : ¬ t.attempts < 1 := by rw [hA]; omega
  have htn : t.attempts.toNat = N := by rw [hA]; omega
  rw [getToken, if_neg hnotlt, htn]
  have h := getTokenAux_success_after mic (k - 1) t 0 N [] tk (by omega)
    (fun j hj => by simpa using hfail j hj)
    (by simpa using hsucc)
  refine ⟨?_, h.2.1, h.1⟩
  rw [h.2.2]
  omega

/-- Witness for C3: three attempts, failure then success on attempt 2. -/
theorem getToken_success_on_kth_witness :
    (getToken micFailThenOk (rtU 3 0)).calls = 2 ∧
    (getToken micFailThenOk (rtU 3 0)).err = none ∧
    (getToken micFailThenOk (rtU 3 0)).token = ⟨"tok2", 42⟩ := by
  refine getToken_success_on_kth micFailThenOk (rtU 3 0) 3 2 ⟨"tok2", 42⟩
    (by decide) (by decide) (by decide) ?_ rfl
  intro j hj
  have hj0 : j = 0 := by omega
  subst hj0
  exact ⟨.otherErr "EOF", rfl⟩

/-- C4: `BuildChainedToken` invokes each resolver exactly once in order
(the trace is the tag list); the credential list handed to the chain
constructor is exactly the credentials of the resolvers that returned no
error, in their original relative order; and the returned value is exactly
the constructor's result, so no individual resolver error appears in (or
causes) the returned error. -/
theorem buildChainedToken_spec {E C Chain : Type} (ctor : List C → Except E Chain)
    (rs : List (Resolver E C)) :
    (buildChainedToken ctor rs).1 = rs.map Resolver.tag ∧
    (buildChainedToken ctor rs).2 = ctor (okCredentials rs) := by
  unfold buildChainedToken
  rw [runResolvers_eq]
  exact ⟨rfl, rfl⟩

/-- C5 counterexample: the claim says the adaptive `timeout` field is the
only instance field a `GetToken` call mutates, `attempts` in particular
being unchanged.  A call on an instance constructed with `attempts = 0`
coerces the `attempts` field to `1`, mutating it. -/
theorem getToken_mutates_attempts :
    (getToken micAlwaysOk (rtU 0 5)).state.attempts = 1 ∧
    ¬ (getToken micAlwaysOk (rtU 0 5)).state.attempts = (rtU 0 5).attempts := by
  decide

/-- C5 (amended): a `GetToken` call mutates at most the adaptive `timeout`
field and the `attempts` field, the latter only by coercing it to `1` when
it was below `1`; the underlying credential is never changed, and when
`attempts ≥ 1` at entry the `attempts` field is unchanged. -/
theorem getToken_frame {M : Type} (mic : Nat → Except AzError AccessToken)
    (t : Retryable M) :
    (getToken mic t).state.mic = t.mic ∧
    (getToken mic t).state.attempts = (if t.attempts < 1 then 1 else t.attempts) := by
  rw [getToken]
  by_cases h : t.attempts < 1
  · rw [if_pos h, if_pos h]
    exact getTokenAux_state_frame mic 1 { t with attempts := 1 } 0 []
  · rw [if_neg h, if_neg h]
    exact getTokenAux_state_frame mic _ t 0 []

/-- C6: every `GetToken` call — also on an instance constructed with
`attempts` equal to `0` or negative — performs at least one invocation of
the underlying credential, and leaves the `attempts` field coerced to at
least `1`. -/
theorem getToken_at_least_one_call {M : Type} (mic : Nat → Except AzError AccessToken)
    (t : Retryable M) :
    1 ≤ (getToken mic t).calls ∧ 1 ≤ (getToken mic t).state.attempts := by
  constructor
  · rw [getToken]
    by_cases h : t.attempts < 1
    · rw [if_pos h]
      exact getTokenAux_calls_succ_le mic _ 0 0 []
    · rw [if_neg h]
      obtain ⟨r, hr⟩ : ∃ r, t.attempts.toNat = r + 1 := ⟨t.attempts.toNat - 1, by omega⟩
      rw [hr]
      exact getTokenAux_calls_succ_le mic t 0 r []
  · rw [getToken]
    by_cases h : t.attempts < 1
    · rw [if_pos h]
      rw [(getTokenAux_state_frame mic 1 { t with attempts := 1 } 0 []).2]
    · rw [if_neg h]
      rw [(getTokenAux_state_frame mic _ t 0 []).2]
      omega

/-- C7 counterexample: the claim says an authentication-rejection error
that is not a timeout is not retried.  With `attempts = 2` and an
underlying credential rejecting every invocation with such an error (it is
an authentication failure and does not manifest a deadline), `GetToken`
performs 2 invocations — a further invocation does occur after the failed
attempt. -/
theorem getToken_retries_auth_failure_cex :
    errorsAsAuthFailed (AzError.authenticationFailed "invalid client secret") = true ∧
    manifestsAsDeadline (AzError.authenticationFailed "invalid client secret") = false ∧
    (getToken micAlwaysAuthFail (rtU 2 5)).calls = 2 := by
  decide

/-- C7 (amended): an authentication-rejection error is retried like any
other failure: when the first attempt fails with a non-timeout
authentication-rejection error and `attempts ≥ 2`, at least one further
invocation of the underlying credential occurs in the same `GetToken`
call. -/
theorem getToken_retries_after_auth_failure {M : Type}
    (mic : Nat → Except AzError AccessToken) (t : Retryable M) (N : Nat) (e : AzError)
    (hA : t.attempts = (N : Int)) (hN : 2 ≤ N)
    (h0 : mic 0 = .error e)
    (_hauth : errorsAsAuthFailed e = true)
    (_hnd : manifestsAsDeadline e = false) :
    2 ≤ (getToken mic t).calls := by
  have hnotlt : ¬ t.attempts < 1 := by rw [hA]; omega
  have htn : t.attempts.toNat = N := by rw [hA]; omega
  rw [getToken, if_neg hnotlt, htn]
  obtain ⟨r, hr⟩ : ∃ r, N = (r + 1) + 1 := ⟨N - 2, by omega⟩
  subst hr
  have hstep : tryGetToken t (mic 0) = (.error (recordErr t.timeout e), t) := by
    rw [h0, tryGetToken_err]
  rw [getTokenAux_succ_err mic t t 0 (r + 1) [] _ hstep]
  simpa using getTokenAux_calls_succ_le mic t 1 r [recordErr t.timeout e]

/-- Witness for C7 (amended): three attempts, every invocation rejected
with a non-timeout authentication failure. -/
theorem getToken_retries_after_auth_failure_witness :
    2 ≤ (getToken micAlwaysAuthFail (rtU 3 5)).calls :=
  getToken_retries_after_auth_failure micAlwaysAuthFail (rtU 3 5) 3
    (.authenticationFailed "invalid client secret")
    (by decide) (by decide) rfl (by decide) (by decide)

/-- C8: on a failing attempt with a positive timeout, the per-attempt
error the wrapper records is the classified error: when the failure
manifests as a deadline/timeout against the identity endpoint (an
authentication-failed error whose message shows a context deadline
exceeded), it is replaced by the distinct credential-unavailable kind
"managed identity request timed out" (which is not an authentication
failure); any failure not manifesting a deadline/timeout is recorded
unchanged. -/
theorem tryGetToken_reclassifies_deadline {M : Type} (t : Retryable M) (e : AzError)
    (ht : 0 < t.timeout) :
    (manifestsAsDeadline e = true →
      (tryGetToken t (.error e)).1 =
        .error (.credentialUnavailable "managed identity request timed out") ∧
      errorsAsAuthFailed (classifyTimeoutError e) = false) ∧
    (manifestsAsDeadline e = false →
      (tryGetToken t (.error e)).1 = .error e) := by
  have h1 : (tryGetToken t (.error e)).1 = .error (recordErr t.timeout e) := by
    rw [tryGetToken_err]
  rw [h1]
  unfold recordErr
  rw [if_pos ht]
  constructor
  · intro h
    unfold classifyTimeoutError
    rw [if_pos h]
    exact ⟨rfl, rfl⟩
  · intro h
    unfold classifyTimeoutError
    rw [if_neg (by simp [h])]

/-- Witness for C8: a deadline-manifesting authentication failure under a
positive timeout. -/
theorem tryGetToken_reclassifies_deadline_witness :
    0 < (rtU 1 5).timeout ∧
    ((manifestsAsDeadline eDeadline = true →
      (tryGetToken (rtU 1 5) (.error eDeadline)).1 =
        .error (.credentialUnavailable "managed identity request timed out") ∧
      errorsAsAuthFailed (classifyTimeoutError eDeadline) = false) ∧
    (manifestsAsDeadline eDeadline = false →
      (tryGetToken (rtU 1 5) (.error eDeadline)).1 = .error eDeadline)) :=
  ⟨by decide, tryGetToken_reclassifies_deadline (rtU 1 5) eDeadline (by decide)⟩

/-- C9: for a certificate-kind descriptor whose secret bytes fail to
parse, `GetTokenFromCredential` returns no credential and a wrapped error
whose message names the descriptor's private-key path hint; the only
effect performed is the (local) certificate parse — no credential
constructor is invoked and the default chain is not built, so no network
call happens and no credential is constructed. -/
theorem getTokenFromCredential_parse_failure {Cred Certs Key : Type}
    (env : AzEnv Cred Certs Key) (cred : VaultCredential)
    (tenantID clientID : String) (e : String)
    (hkind : cred.type = .pkcs12)
    (hparse : env.parseCertificates cred.secret cred.password = .error e) :
    getTokenFromCredential env (some cred) tenantID clientID =
      ([AzEffect.parseCertificates],
        .error ("could not parse provided certificate at "
          ++ cred.privateKeyPath ++ ": " ++ e)) ∧
    stringsContains ("could not parse provided certificate at "
      ++ cred.privateKeyPath ++ ": " ++ e) cred.privateKeyPath = true ∧
    AzEffect.newClientCertificateCredential ∉
      (getTokenFromCredential env (some cred) tenantID clientID).1 ∧
    AzEffect.newClientSecretCredential ∉
      (getTokenFromCredential env (some cred) tenantID clientID).1 ∧
    AzEffect.buildDefaultChain ∉
      (getTokenFromCredential env (some cred) tenantID clientID).1 := by
  have hmain : getTokenFromCredential env (some cred) tenantID clientID =
      ([AzEffect.parseCertificates],
        .error ("could not parse provided certificate at "
          ++ cred.privateKeyPath ++ ": " ++ e)) := by
    simp only [getTokenFromCredential]
    rw [hkind, hparse]
  refine ⟨hmain, ?_, ?_, ?_, ?_⟩
  · rw [show ("could not parse provided certificate at "
        ++ cred.privateKeyPath ++ ": " ++ e) =
        ("could not parse provided certificate at "
        ++ cred.privateKeyPath ++ (": " ++ e)) by rw [String.append_assoc]]
    exact stringsContains_embed _ cred.privateKeyPath _
  · rw [hmain]; simp
  · rw [hmain]; simp
  · rw [hmain]; simp

/-- Witness for C9: a concrete unparsable certificate descriptor. -/
theorem getTokenFromCredential_parse_failure_witness :
    getTokenFromCredential envW (some credW) "tenant" "client" =
      ([AzEffect.parseCertificates],
        .error ("could not parse provided certificate at "
          ++ credW.privateKeyPath ++ ": " ++ "pkcs12: decode failure")) ∧
    stringsContains ("could not parse provided certificate at "
      ++ credW.privateKeyPath ++ ": " ++ "pkcs12: decode failure")
      credW.privateKeyPath = true ∧
    AzEffect.newClientCertificateCredential ∉
      (getTokenFromCredential envW (some credW) "tenant" "client").1 ∧
    AzEffect.newClientSecretCredential ∉
      (getTokenFromCredential envW (some credW) "tenant" "client").1 ∧
    AzEffect.buildDefaultChain ∉
      (getTokenFromCredential envW (some credW) "tenant" "client").1 :=
  getTokenFromCredential_parse_failure envW credW "tenant" "client"
    "pkcs12: decode failure" rfl rfl

/-- C10: when every resolver fails (and for the empty sequence), the chain
constructor is still invoked, with the empty credential list, and
`BuildChainedToken` returns exactly its result; the discarded resolver
errors appear in no returned value — the returned pair is determined by
the tags and the constructor alone. -/
theorem buildChainedToken_all_resolvers_fail {E C Chain : Type}
    (ctor : List C → Except E Chain) (rs : List (Resolver E C))
    (h : ∀ r ∈ rs, ∃ e, r.result = .error e) :
    buildChainedToken ctor rs = (rs.map Resolver.tag, ctor []) := by
  unfold buildChainedToken
  rw [runResolvers_eq, okCredentials_all_fail rs h]

/-- Witness for C10: two failing resolvers; the constructor receives the
empty list and its (successful) result is returned untouched. -/
theorem buildChainedToken_all_resolvers_fail_witness :
    buildChainedToken ctorW rsW = ([0, 1], Except.ok 0) := by
  have h := buildChainedToken_all_resolvers_fail ctorW rsW (by
    intro r hr
    simp only [rsW, List.mem_cons, List.mem_singleton] at hr
    rcases hr with rfl | rfl | h
    · exact ⟨"cli unavailable", rfl⟩
    · exact ⟨"env missing", rfl⟩
    · exact absurd h (List.not_mem_nil r))
  simpa [rsW, ctorW] using h

end Azauth
